import Mathlib

set_option autoImplicit false

/-
Verification development for the `tokencounter` HTTP middleware package
(a token counter plugin for an OpenAI-style chat-completion API).

The repository contains three near-duplicate iterations of the same design:
  * variant 1: src/tokencounter.go, first file (lines 1-201),
  * variant 2: src/tokencounter.go, second file (lines 202-414),
  * variant 3: src/unnamed/part_000 (the cache-aware iteration).
All three are embedded below.  Go strings are modelled as their rune
sequences (`List Nat` of Unicode code points); body bytes are likewise
modelled as opaque rune/byte lists.  `encoding/json` is a Go standard
library collaborator, so the two body decoders (`json.Unmarshal` into the
request and response envelope types) are taken as explicit functional
parameters: a decoder returning `none` models an Unmarshal error.  For the
`OpenAIResponse` target of variants 1/2 — whose partially populated value
variant 2 reads on failure — the decoder instead returns the populated
target paired with an `err != nil` flag, since `json.Unmarshal` fills
fields as best it can before returning a type-mismatch error.

The real client-facing `http.ResponseWriter` is modelled as a `Sink` that
records the header map, the status, the body bytes, and an ordered event
trace of everything that reached it.  This matches the observation model of
the package's own tests, which use `httptest.NewRecorder` and inspect the
recorder's header map after the handler returns.
-/
namespace TC

/-- A Go string, modelled as its sequence of runes (Unicode code points, one
`Nat` per rune, as produced by `for _, r := range s`).  The strings handled
by the claims are ASCII, where runes and bytes coincide. -/
abbrev GoStr := List Nat

/-- Rune sequence of a Lean string literal (all literals used are ASCII). -/
def runes (s : String) : GoStr := s.data.map Char.toNat

/-- Model of `unicode.IsLetter`, restricted to the ASCII range (the only range the
spec's properties exercise): `A`-`Z` or `a`-`z`. -/
def isLetterRune (c : Nat) : Bool :=
  (decide (65 ≤ c) && decide (c ≤ 90)) || (decide (97 ≤ c) && decide (c ≤ 122))

/-- Model of `unicode.IsDigit`, restricted to ASCII: `0`-`9`. -/
def isDigitRune (c : Nat) : Bool := decide (48 ≤ c) && decide (c ≤ 57)

/-- The word-character test of `estimateTokens`:
`unicode.IsLetter(r) || unicode.IsDigit(r)`. -/
def isWordRune (c : Nat) : Bool := isLetterRune c || isDigitRune c

/-- Model of `strings.ToLower`, per rune, on the ASCII range: map `A`-`Z` to
`a`-`z` and leave everything else unchanged. -/
def lowerRune (c : Nat) : Nat := if 65 ≤ c ∧ c ≤ 90 then c + 32 else c

/-- The scanning loop of `estimateTokens`: `words` starts at 0, `inWord` at
`false`, and a transition from boundary/start into a word rune counts a new
word run.  Formulated without the accumulator: the result is the number of
runs counted by the Go loop given the initial `inWord` flag. -/
def countWordsAux : GoStr → Bool → Nat
  | [], _ => 0
  | c :: rest, inWord =>
    if isWordRune c then (if inWord then 0 else 1) + countWordsAux rest true
    else countWordsAux rest false

/-- Model of `TokenCounter.estimateTokens` (identical in all three variants:
src/tokencounter.go lines 173-201 and 386-414, src/unnamed/part_000 lines
279-307).  `tokens := int(float64(words) * 1.33)` is modelled as
`words * 133 / 100`: both truncate toward zero, and for every word count
below 2^40 the IEEE-754 double computation `float64(words) * 1.33` truncates
to exactly `words * 133 / 100` (the double nearest 1.33 exceeds 133/100 by
about 7.2e-17 in relative terms, far below the 1/100 distance of any
non-integer value of `133*words/100` to the next integer, and products that
are exact integers round back to the integer or just above it). -/
def estimateTokens (text : GoStr) : Nat :=
  if text = [] then 0
  else
    let lowered := text.map lowerRune
    let words := countWordsAux lowered false
    let tokens := words * 133 / 100
    if tokens = 0 ∧ 0 < lowered.length then 1 else tokens

/-- Decimal digit rune: `'0' + d`, as produced by `strconv`. -/
def digitRune (d : Nat) : Nat := 48 + d

/-- Digit-peeling loop of `strconv.Itoa` for a positive argument, with an
explicit fuel bound so the recursion is structural (the argument loses at
least one decimal digit per step, so fuel `n` is never exhausted when
starting from `n`). -/
def itoaAux : Nat → Nat → GoStr → GoStr
  | 0, _, acc => acc
  | fuel + 1, n, acc =>
    if n = 0 then acc else itoaAux fuel (n / 10) (digitRune (n % 10) :: acc)

/-- Model of `strconv.Itoa` on a non-negative value. -/
def itoaNat (n : Nat) : GoStr := if n = 0 then runes "0" else itoaAux n n []

/-- Model of `strconv.Itoa` (Go `int` argument, sign included). -/
def itoa (i : Int) : GoStr := if i < 0 then 45 :: itoaNat i.natAbs else itoaNat i.toNat

/-- Space-joining of a word list, as in the spec's "`w` space-separated
alphanumeric words": word, space, word, space, ..., word. -/
def joinSpace : List GoStr → GoStr
  | [] => []
  | [w] => w
  | w :: w' :: ws => w ++ 32 :: joinSpace (w' :: ws)

/-- A decoded generic JSON value: the model of the `interface{}` values
`encoding/json` produces for part_000's `MessageContent`.  `.null` models
both an absent field and JSON `null` (Go `nil`); `.obj` models
`map[string]interface{}` (decoded Go maps have unique keys); numbers are
modelled as integers since no claim inspects numeric content values. -/
inductive JsonValue where
  | null
  | bool (b : Bool)
  | num (n : Int)
  | str (s : GoStr)
  | arr (items : List JsonValue)
  | obj (fields : List (GoStr × JsonValue))

/-- Map lookup `m[key]` on a decoded JSON object. -/
def jlookup : List (GoStr × JsonValue) → GoStr → Option JsonValue
  | [], _ => none
  | (k, v) :: rest, key => if k = key then some v else jlookup rest key

/-- Go's dynamic comparison `v == "lit"` of an `interface{}` against a string
literal: true iff the value is exactly that string. -/
def isStrVal (v : JsonValue) (s : GoStr) : Bool :=
  match v with
  | .str t => decide (t = s)
  | _ => false

/-- Body of the per-item loop of `TokenCounter.estimateTokensFromContent`
(src/unnamed/part_000 lines 260-272): a map item with `type == "text"` and a
string `text` field contributes the Estimator's result; otherwise a map item
with `type == "image_url"` contributes 85; everything else contributes 0
(including a missing `type` key, whose `nil` value compares unequal to
`"image_url"`). -/
def contentItemTokens (item : JsonValue) : Nat :=
  match item with
  | .obj fields =>
    match jlookup fields (runes "type") with
    | some itemType =>
      if isStrVal itemType (runes "text") then
        match jlookup fields (runes "text") with
        | some (.str textStr) => estimateTokens textStr
        | _ => 0
      else if isStrVal itemType (runes "image_url") then 85
      else 0
    | none => 0
  | _ => 0

/-- Model of `TokenCounter.estimateTokensFromContent` (src/unnamed/part_000 lines
250-277): nil content yields 0, a plain string delegates to the Estimator, a
`[]interface{}` part list accumulates `contentItemTokens` over its items,
and any other shape yields 0. -/
def estimateTokensFromContent (content : JsonValue) : Nat :=
  match content with
  | .null => 0
  | .str s => estimateTokens s
  | .arr items => items.foldl (fun acc item => acc + contentItemTokens item) 0
  | _ => 0

/-- part_000's `Message` (lines 84-90).  `content` is the polymorphic
`MessageContent` (`interface{}`); `.null` models an absent field.  The
`tool_calls` field is carried as raw JSON values: no code reads it. -/
structure Message where
  role : GoStr := []
  content : JsonValue := .null
  name : GoStr := []
  toolCalls : List JsonValue := []
  toolCallID : GoStr := []

/-- part_000's `SimpleRequest` (lines 117-120). -/
structure SimpleRequest where
  model : GoStr := []
  messages : List Message := []

/-- Model of `Usage` (part_000 lines 123-127; inlined in the `OpenAIResponse` of the
other two variants).  Go `int` fields. -/
structure Usage where
  promptTokens : Int := 0
  completionTokens : Int := 0
  totalTokens : Int := 0

/-- part_000's `SimpleResponse` (lines 130-132): only the usage record. -/
structure SimpleResponse where
  usage : Usage := {}

/-- A message of variants 1/2's `OpenAIRequest`: content is a plain string. -/
structure OAMessage where
  role : GoStr := []
  content : GoStr := []

/-- Model of `OpenAIRequest` of variants 1 and 2 (tokencounter.go lines 56-63 and
257-265). -/
structure OpenAIRequest where
  model : GoStr := []
  messages : List OAMessage := []
  stream : Bool := false

/-- Model of `choices[i].message` of variants 1/2's `OpenAIResponse`. -/
structure ChoiceMessage where
  content : GoStr := []

/-- One element of `choices` in variants 1/2's `OpenAIResponse`. -/
structure Choice where
  message : ChoiceMessage := {}

/-- Model of `OpenAIResponse` of variants 1 and 2 (tokencounter.go lines 65-76 and
267-279). -/
structure OpenAIResponse where
  usage : Usage := {}
  choices : List Choice := []

/-- Model of `TokenCounter.countRequestTokens` of variants 1 and 2 (tokencounter.go
lines 145-158 and 358-371): per message, content estimate + role estimate
+ 4, then model estimate + 2. -/
def countRequestTokens_v12 (req : OpenAIRequest) : Nat :=
  let totalTokens := req.messages.foldl
    (fun acc message => acc + estimateTokens message.content + estimateTokens message.role + 4) 0
  totalTokens + estimateTokens req.model + 2

/-- Model of `TokenCounter.countResponseTokens` of variants 1 and 2 (tokencounter.go
lines 160-171 and 373-384): the upstream completion count when positive,
otherwise the Estimator summed over the choices' message contents. -/
def countResponseTokens_v12 (resp : OpenAIResponse) : Int :=
  if 0 < resp.usage.completionTokens then resp.usage.completionTokens
  else (resp.choices.foldl (fun acc choice => acc + estimateTokens choice.message.content) 0 : Nat)

/-- Model of `TokenCounter.countRequestTokens` of variant 3 (part_000 lines 231-244):
as in the other variants, but content goes through the Content Extractor. -/
def countRequestTokens_v3 (req : SimpleRequest) : Nat :=
  let totalTokens := req.messages.foldl
    (fun acc message => acc + estimateTokensFromContent message.content + estimateTokens message.role + 4) 0
  totalTokens + estimateTokens req.model + 2

/-- Model of `TokenCounter.countResponseTokens` of variant 3 (part_000 lines 246-248):
just the upstream completion count (`SimpleResponse` has no choices). -/
def countResponseTokens_v3 (resp : SimpleResponse) : Int := resp.usage.completionTokens

/-- An inbound HTTP request.  `body = none` models an unreadable body stream
(`io.ReadAll` failing); `body = some bs` a stream that reads as `bs`. -/
structure HttpRequest where
  method : GoStr
  path : GoStr
  body : Option GoStr
  deriving DecidableEq

/-- One operation an upstream handler performs on the response writer it is
given: `Header().Set`, `WriteHeader`, or `Write`. -/
inductive UpAction where
  | setHeader (k v : GoStr)
  | writeHeader (code : Nat)
  | write (bs : GoStr)
  deriving DecidableEq

/-- One observable event at the real client-facing sink, in order.
`invokeNext req` records the upstream handler being invoked with request
`req`; `engineDecided` marks the point where control returns from the
upstream handler to the middleware — the earliest point at which the
accounting decision about the token counts can be complete. -/
inductive Event where
  | invokeNext (req : HttpRequest)
  | setHeader (k v : GoStr)
  | writeStatus (code : Nat)
  | writeBody (bs : GoStr)
  | engineDecided
  deriving DecidableEq

/-- The real client-facing `http.ResponseWriter`, with the observation model
of `httptest.NewRecorder` (the package's own tests): header map, recorded
status (first explicit `WriteHeader` wins), accumulated body bytes, and the
ordered trace of events that reached it. -/
structure Sink where
  headers : List (GoStr × GoStr)
  status : Option Nat
  bodyOut : GoStr
  events : List Event
  deriving DecidableEq

/-- A fresh recorder. -/
def emptySink : Sink := { headers := [], status := none, bodyOut := [], events := [] }

/-- Model of `http.Header.Set`: replace any existing value of the key (keys appear in
canonical MIME form in both the source and the model, so exact matching is
faithful). -/
def hSet (hs : List (GoStr × GoStr)) (k v : GoStr) : List (GoStr × GoStr) :=
  hs.filter (fun p => decide (p.1 ≠ k)) ++ [(k, v)]

/-- First value stored for a key, `none` when absent. -/
def hGetO : List (GoStr × GoStr) → GoStr → Option GoStr
  | [], _ => none
  | (k', v) :: rest, k => if k' = k then some v else hGetO rest k

/-- Model of `http.Header.Get`: the empty string when the key is absent. -/
def hGetD (hs : List (GoStr × GoStr)) (k : GoStr) : GoStr := (hGetO hs k).getD []

def sinkSet (s : Sink) (k v : GoStr) : Sink :=
  { s with headers := hSet s.headers k v, events := s.events ++ [.setHeader k v] }

def sinkWriteHeader (s : Sink) (code : Nat) : Sink :=
  { s with status := if s.status = none then some code else s.status,
           events := s.events ++ [.writeStatus code] }

def sinkWrite (s : Sink) (bs : GoStr) : Sink :=
  { s with bodyOut := s.bodyOut ++ bs, events := s.events ++ [.writeBody bs] }

/-- Record the upstream handler being invoked with request `q`. -/
def sinkInvoke (s : Sink) (q : HttpRequest) : Sink :=
  { s with events := s.events ++ [.invokeNext q] }

def applySink (s : Sink) : UpAction → Sink
  | .setHeader k v => sinkSet s k v
  | .writeHeader code => sinkWriteHeader s code
  | .write bs => sinkWrite s bs

/-- Run an upstream handler's operations directly against the real sink (the
bypass paths hand the real writer to the upstream unchanged). -/
def runOnSink (s : Sink) (as : List UpAction) : Sink := as.foldl applySink s

/-- The `responseWriter` wrapper (tokencounter.go lines 78-92 and 281-295,
part_000 lines 134-148): embeds the real writer, accumulates a copy of every
written chunk in `body`, records the last status code passed to
`WriteHeader` (initialized to 200), and forwards every `WriteHeader` and
`Write` to the embedded real writer immediately.  `Header()` is the promoted
method of the embedded real writer, so header sets go straight to the real
header map. -/
structure RespWriter where
  real : Sink
  body : GoStr
  statusCode : Nat

def applyRW (w : RespWriter) : UpAction → RespWriter
  | .setHeader k v => { w with real := sinkSet w.real k v }
  | .writeHeader code => { w with statusCode := code, real := sinkWriteHeader w.real code }
  | .write bs => { w with body := w.body ++ bs, real := sinkWrite w.real bs }

/-- Run an upstream handler's operations against the wrapper. -/
def runOnRW (w : RespWriter) (as : List UpAction) : RespWriter := as.foldl applyRW w

/-- Append the `engineDecided` marker: control has returned from the
upstream handler to the middleware. -/
def markDecided (s : Sink) : Sink := { s with events := s.events ++ [.engineDecided] }

/-- The plugin configuration resolved by `New` (identical in all variants). -/
structure TokenCounterCfg where
  requestTokenHeader : GoStr
  responseTokenHeader : GoStr

/-- The default header names of `CreateConfig` / `New`. -/
def defaultCfg : TokenCounterCfg :=
  { requestTokenHeader := runes "X-Request-Token-Count",
    responseTokenHeader := runes "X-Response-Token-Count" }

/-- Model of `strings.Contains(hay, needle)` on rune sequences. -/
def hasSubstr : GoStr → GoStr → Bool
  | [], needle => needle.isPrefixOf []
  | c :: rest, needle => needle.isPrefixOf (c :: rest) || hasSubstr rest needle

/-- Model of `TokenCounter.setEstimatedTokens` (part_000 lines 211-218): set the
request header to the envelope estimate and the response header to
`countResponseTokens` of the parsed response. -/
def setEstimatedTokens (tc : TokenCounterCfg) (s : Sink) (req : SimpleRequest)
    (resp : SimpleResponse) : Sink :=
  sinkSet (sinkSet s tc.requestTokenHeader (itoa (countRequestTokens_v3 req : Int)))
    tc.responseTokenHeader (itoa (countResponseTokens_v3 resp))

/-- The guarded header-setting step shared by part_000's `setActualTokens`
and the inline trust-the-upstream branch of variant 2's `ServeHTTP`: set
each token header from the usage record only when the respective count is
strictly positive. -/
def setUsageTokens (tc : TokenCounterCfg) (s : Sink) (u : Usage) : Sink :=
  let s1 := if 0 < u.promptTokens
    then sinkSet s tc.requestTokenHeader (itoa u.promptTokens) else s
  if 0 < u.completionTokens
    then sinkSet s1 tc.responseTokenHeader (itoa u.completionTokens) else s1

/-- Model of `TokenCounter.setActualTokens` (part_000 lines 220-229). -/
def setActualTokens (tc : TokenCounterCfg) (s : Sink) (resp : SimpleResponse) : Sink :=
  setUsageTokens tc s resp.usage

/-- Post-upstream portion of variant 3's `ServeHTTP` (src/unnamed/part_000
lines 186-208), applied to the returned writer `w`: return silently on a
non-200 captured status or an unparseable body; otherwise estimate on a
cache hit and trust the upstream otherwise.  `markDecided` records that
control has returned from the upstream handler. -/
def engineTail_v3 (decResp : GoStr → Option SimpleResponse) (tc : TokenCounterCfg)
    (openAIReq : SimpleRequest) (w : RespWriter) : Sink :=
  let s := markDecided w.real
  if w.statusCode ≠ 200 then s
  else
    match decResp w.body with
    | none => s
    | some simpleResp =>
      if hGetD s.headers (runes "X-Cache-Status") = runes "Hit" then
        setEstimatedTokens tc s openAIReq simpleResp
      else
        setActualTokens tc s simpleResp

/-- Model of `TokenCounter.ServeHTTP`, variant 3 (src/unnamed/part_000 lines
150-209).  `decReq` and `decResp` are the `json.Unmarshal` decoders into
`SimpleRequest` and `SimpleResponse` (`none` models an Unmarshal error);
`next` is the upstream handler, modelled by the sequence of response-writer
operations it performs on whatever writer it is handed; `rw` is the real
client-facing writer. -/
def serveHTTP_v3 (decReq : GoStr → Option SimpleRequest)
    (decResp : GoStr → Option SimpleResponse) (tc : TokenCounterCfg)
    (next : HttpRequest → List UpAction) (req : HttpRequest) (rw : Sink) : Sink :=
  if req.method ≠ runes "POST" then runOnSink (sinkInvoke rw req) (next req)
  else if !hasSubstr req.path (runes "/chat/completions") then
    runOnSink (sinkInvoke rw req) (next req)
  else
    match req.body with
    | none => runOnSink (sinkInvoke rw req) (next req)
    | some body =>
      let req' : HttpRequest := { req with body := some body }
      match decReq body with
      | none => runOnSink (sinkInvoke rw req') (next req')
      | some openAIReq =>
        engineTail_v3 decResp tc openAIReq
          (runOnRW { real := sinkInvoke rw req', body := [], statusCode := 200 } (next req'))

/-- Post-upstream portion of variant 2's `ServeHTTP` (src/tokencounter.go
lines 333-355).  The decoder models `json.Unmarshal` into the local
`openAIResp` variable: it returns the populated target paired with the
error flag (`true` iff `err != nil`).  On a captured 200 whose body fails
to decode, fall back to estimation — the request header from the envelope,
and the response header from `countResponseTokens` applied to `openAIResp`
as the failed `Unmarshal` left it: the zero value when decoding fails
outright, but possibly partially populated, since `json.Unmarshal` fills
fields as best it can before returning a type-mismatch error.  On a parsed
200 set each header only when the respective usage count is positive; on a
non-200 set only the estimated request-token header. -/
def engineTail_v2 (decResp : GoStr → OpenAIResponse × Bool) (tc : TokenCounterCfg)
    (openAIReq : OpenAIRequest) (w : RespWriter) : Sink :=
  let s := markDecided w.real
  if w.statusCode = 200 then
    let r := decResp w.body
    if r.2 then
      sinkSet (sinkSet s tc.requestTokenHeader (itoa (countRequestTokens_v12 openAIReq : Int)))
        tc.responseTokenHeader (itoa (countResponseTokens_v12 r.1))
    else setUsageTokens tc s r.1.usage
  else
    sinkSet s tc.requestTokenHeader (itoa (countRequestTokens_v12 openAIReq : Int))

/-- Model of `TokenCounter.ServeHTTP`, variant 2 (src/tokencounter.go lines 297-356). -/
def serveHTTP_v2 (decReq : GoStr → Option OpenAIRequest)
    (decResp : GoStr → OpenAIResponse × Bool) (tc : TokenCounterCfg)
    (next : HttpRequest → List UpAction) (req : HttpRequest) (rw : Sink) : Sink :=
  if req.method ≠ runes "POST" then runOnSink (sinkInvoke rw req) (next req)
  else if !hasSubstr req.path (runes "/chat/completions") then
    runOnSink (sinkInvoke rw req) (next req)
  else
    match req.body with
    | none => runOnSink (sinkInvoke rw req) (next req)
    | some body =>
      let req' : HttpRequest := { req with body := some body }
      match decReq body with
      | none => runOnSink (sinkInvoke rw req') (next req')
      | some openAIReq =>
        engineTail_v2 decResp tc openAIReq
          (runOnRW { real := sinkInvoke rw req', body := [], statusCode := 200 } (next req'))

/-- Post-upstream portion of variant 1's `ServeHTTP` (src/tokencounter.go
lines 132-142).  The decoder is the same `json.Unmarshal` model as in
`engineTail_v2` (populated target paired with the `err != nil` flag);
variant 1 only logs on a decode error, reading the target solely on
success.  Set the (unguarded) response header from `countResponseTokens`
when a 200 body decodes, and always set the request header from the
envelope estimate (which the Go code computes before invoking the
upstream; `countRequestTokens` is pure, so the value is the same). -/
def engineTail_v1 (decResp : GoStr → OpenAIResponse × Bool) (tc : TokenCounterCfg)
    (openAIReq : OpenAIRequest) (w : RespWriter) : Sink :=
  let s := markDecided w.real
  let s2 :=
    if w.statusCode = 200 then
      let r := decResp w.body
      if r.2 then s
      else sinkSet s tc.responseTokenHeader (itoa (countResponseTokens_v12 r.1))
    else s
  sinkSet s2 tc.requestTokenHeader (itoa (countRequestTokens_v12 openAIReq : Int))

/-- Model of `TokenCounter.ServeHTTP`, variant 1 (src/tokencounter.go lines 94-143). -/
def serveHTTP_v1 (decReq : GoStr → Option OpenAIRequest)
    (decResp : GoStr → OpenAIResponse × Bool) (tc : TokenCounterCfg)
    (next : HttpRequest → List UpAction) (req : HttpRequest) (rw : Sink) : Sink :=
  if req.method ≠ runes "POST" then runOnSink (sinkInvoke rw req) (next req)
  else if !hasSubstr req.path (runes "/chat/completions") then
    runOnSink (sinkInvoke rw req) (next req)
  else
    match req.body with
    | none => runOnSink (sinkInvoke rw req) (next req)
    | some body =>
      let req' : HttpRequest := { req with body := some body }
      match decReq body with
      | none => runOnSink (sinkInvoke rw req') (next req')
      | some openAIReq =>
        engineTail_v1 decResp tc openAIReq
          (runOnRW { real := sinkInvoke rw req', body := [], statusCode := 200 } (next req'))

/-- Is this event an invocation of the upstream handler? -/
def isInvokeEv : Event → Bool
  | .invokeNext _ => true
  | _ => false

/-- The sink event produced by forwarding one upstream writer operation. -/
def actionEvent : UpAction → Event
  | .setHeader k v => .setHeader k v
  | .writeHeader code => .writeStatus code
  | .write bs => .writeBody bs

/-- Concatenation of all chunks an upstream handler writes. -/
def writesConcat : List UpAction → GoStr
  | [] => []
  | .write bs :: rest => bs ++ writesConcat rest
  | _ :: rest => writesConcat rest

/-- The body contribution of a single writer operation. -/
def writeOf : UpAction → GoStr
  | .write bs => bs
  | _ => []

/-- Does this event suffix consist of header sets only? -/
def allSetHeaders : List Event → Bool
  | [] => true
  | .setHeader _ _ :: rest => allSetHeaders rest
  | _ => false

/-- Does a status write or a body write reach the sink strictly before the
decision marker (or with no decision marker at all)? -/
def outputBeforeDecision : List Event → Bool
  | [] => false
  | .engineDecided :: _ => false
  | .writeStatus _ :: _ => true
  | .writeBody _ :: _ => true
  | .invokeNext _ :: rest => outputBeforeDecision rest
  | .setHeader _ _ :: rest => outputBeforeDecision rest

/-- The event prefix an in-scope request produces at the real sink up to the
decision point: the upstream invocation, then every upstream operation
forwarded in order, then the decision marker. -/
def tracePre (next : HttpRequest → List UpAction) (req' : HttpRequest) : List Event :=
  Event.invokeNext req' :: ((next req').map actionEvent ++ [Event.engineDecided])

/-- The captured writer state of an in-scope exchange started on a fresh
recorder: the wrapper around the real sink after the upstream handler ran. -/
def ranRW (next : HttpRequest → List UpAction) (req' : HttpRequest) : RespWriter :=
  runOnRW { real := sinkInvoke emptySink req', body := [], statusCode := 200 } (next req')

/-- Opaque stand-in for the raw bytes of a chat-completion request body. -/
def exReqBody : GoStr := runes "raw-request-body-bytes"

/-- An in-scope POST request to /v1/chat/completions. -/
def exRequest : HttpRequest :=
  { method := runes "POST", path := runes "/v1/chat/completions", body := some exReqBody }

/-- The envelope `exReqBody` decodes to (variant 3 shape). -/
def exEnvelope : SimpleRequest :=
  { model := runes "gpt-3.5-turbo",
    messages := [{ role := runes "user", content := .str (runes "What is the weather like?") }] }

/-- The envelope `exReqBody` decodes to (variant 1/2 shape). -/
def exEnvelope12 : OpenAIRequest :=
  { model := runes "gpt-3.5-turbo",
    messages := [{ role := runes "user", content := runes "What is the weather like?" }] }

/-- Request decoder recognizing the example body (variant 3 shape). -/
def exDecReq : GoStr → Option SimpleRequest := fun _ => some exEnvelope

/-- Request decoder recognizing the example body (variant 1/2 shape). -/
def exDecReq12 : GoStr → Option OpenAIRequest := fun _ => some exEnvelope12

/-- Opaque stand-in for the upstream's response body bytes. -/
def exRespBody : GoStr := runes "upstream-response-body-bytes"

/-- A response whose usage record is all zero (the typical cached shape). -/
def exZeroUsageResp : SimpleResponse := { usage := {} }

/-- Response decoder yielding the all-zero usage record. -/
def exDecRespZero : GoStr → Option SimpleResponse := fun _ => some exZeroUsageResp

/-- A cached-style response reporting zero prompt tokens but a non-zero
completion count. -/
def exZeroPromptResp : SimpleResponse :=
  { usage := { promptTokens := 0, completionTokens := 25, totalTokens := 25 } }

/-- Response decoder yielding `exZeroPromptResp`. -/
def exDecRespZeroPrompt : GoStr → Option SimpleResponse := fun _ => some exZeroPromptResp

/-- A response with upstream-reported usage 15/25/40 (variant 3 shape). -/
def exUsageResp : SimpleResponse :=
  { usage := { promptTokens := 15, completionTokens := 25, totalTokens := 40 } }

/-- Response decoder yielding usage 15/25/40 (variant 3 shape). -/
def exDecResp : GoStr → Option SimpleResponse := fun _ => some exUsageResp

/-- Response decoder yielding usage 15/25/40 without error (variant 1/2
shape: populated target paired with the `err != nil` flag). -/
def exDecResp12 : GoStr → OpenAIResponse × Bool :=
  fun _ => ({ usage := { promptTokens := 15, completionTokens := 25, totalTokens := 40 } }, false)

/-- A response decoder that always fails (unparseable body), variant 3. -/
def exDecRespFail : GoStr → Option SimpleResponse := fun _ => none

/-- A response decoder failing outright (syntax error: the target is left
at its zero value), variant 1/2. -/
def exDecRespFail12 : GoStr → OpenAIResponse × Bool := fun _ => ({}, true)

/-- The target value of a partially successful decode: a body such as a
JSON object whose usage decoded with `completion_tokens` 7 before a
type-mismatch error on another field. -/
def exPartialResp12 : OpenAIResponse := { usage := { completionTokens := 7 } }

/-- A response decoder failing with a type-mismatch error after populating
`usage.completion_tokens = 7` (Go's Unmarshal fills fields as best it can
before returning an `UnmarshalTypeError`). -/
def exDecRespPartial12 : GoStr → OpenAIResponse × Bool := fun _ => (exPartialResp12, true)

/-- An upstream handler that signals a cache hit and writes a body. -/
def exNextHit : HttpRequest → List UpAction := fun _ =>
  [.setHeader (runes "X-Cache-Status") (runes "Hit"), .writeHeader 200, .write exRespBody]

/-- An upstream handler with no cache signal that writes a body. -/
def exNextPlain : HttpRequest → List UpAction := fun _ =>
  [.writeHeader 200, .write exRespBody]

/-- A health-check style request, out of scope for the middleware. -/
def exHealthRequest : HttpRequest :=
  { method := runes "GET", path := runes "/health", body := some [] }

/-- An upstream handler that only acknowledges with a 200. -/
def exNextOk : HttpRequest → List UpAction := fun _ => [.writeHeader 200]

theorem itoaAux_append (fuel : Nat) :
    ∀ (n : Nat) (acc : GoStr), itoaAux fuel n acc = itoaAux fuel n [] ++ acc := by
  induction fuel with
  | zero => intro n acc; rfl
  | succ fuel ih =>
    intro n acc
    by_cases hn : n = 0
    · simp [itoaAux, hn]
    · rw [itoaAux, if_neg hn, ih (n / 10) (digitRune (n % 10) :: acc)]
      conv_rhs => rw [itoaAux, if_neg hn, ih (n / 10) [digitRune (n % 10)]]
      rw [List.append_assoc]
      rfl

theorem itoaAux_ne_nil (fuel n : Nat) (hf : 1 ≤ fuel) (h : n ≠ 0) :
    itoaAux fuel n [] ≠ [] := by
  match fuel with
  | 0 => omega
  | f + 1 =>
    rw [itoaAux, if_neg h, itoaAux_append]
    simp

theorem itoaNat_ne_zero_str {n : Nat} (h : n ≠ 0) : itoaNat n ≠ runes "0" := by
  match n with
  | 0 => exact absurd rfl h
  | m + 1 =>
    rw [itoaNat, if_neg (Nat.succ_ne_zero m), itoaAux, if_neg (Nat.succ_ne_zero m),
      itoaAux_append]
    intro heq
    have hz : runes "0" = [48] := by decide
    rw [hz] at heq
    have hlen : (itoaAux m ((m + 1) / 10) [] ++ [digitRune ((m + 1) % 10)]).length = 1 := by
      rw [heq]
      rfl
    rw [List.length_append, List.length_singleton] at hlen
    have hnil : itoaAux m ((m + 1) / 10) [] = [] :=
      List.eq_nil_of_length_eq_zero (by omega)
    have hq : (m + 1) / 10 = 0 := by
      by_contra hq
      have hm1 : 1 ≤ m := by omega
      exact itoaAux_ne_nil m _ hm1 hq hnil
    rw [hnil, List.nil_append] at heq
    have hd : digitRune ((m + 1) % 10) = 48 := List.singleton_inj.mp heq
    have hd' : 48 + (m + 1) % 10 = 48 := hd
    omega

theorem itoa_natCast_ne_zero_str {n : Nat} (h : n ≠ 0) : itoa (n : Int) ≠ runes "0" := by
  rw [itoa, if_neg (by exact not_lt.mpr (Int.natCast_nonneg n)), Int.toNat_natCast]
  exact itoaNat_ne_zero_str h

theorem isWordRune_lowerRune (c : Nat) : isWordRune (lowerRune c) = isWordRune c := by
  have hiff : isWordRune (lowerRune c) = true ↔ isWordRune c = true := by
    unfold lowerRune isWordRune isLetterRune isDigitRune
    split
    · simp only [Bool.or_eq_true, Bool.and_eq_true, decide_eq_true_eq]
      omega
    · rfl
  cases hl : isWordRune (lowerRune c) <;> cases hr : isWordRune c <;> simp_all

theorem countWordsAux_nonword (text : GoStr) (b : Bool)
    (h : ∀ c ∈ text, isWordRune c = false) : countWordsAux text b = 0 := by
  induction text generalizing b with
  | nil => rfl
  | cons c rest ih =>
    rw [countWordsAux, if_neg]
    · exact ih false fun x hx => h x (List.mem_cons_of_mem c hx)
    · simp [h c (List.mem_cons_self c rest)]

theorem countWordsAux_word_append (w rest : GoStr)
    (h : ∀ c ∈ w, isWordRune c = true) :
    countWordsAux (w ++ rest) true = countWordsAux rest true := by
  induction w with
  | nil => rfl
  | cons c w' ih =>
    rw [List.cons_append, countWordsAux, if_pos (h c (List.mem_cons_self c w'))]
    simpa using ih fun x hx => h x (List.mem_cons_of_mem c hx)

theorem countWordsAux_word_start (w rest : GoStr) (hw : w ≠ [])
    (h : ∀ c ∈ w, isWordRune c = true) :
    countWordsAux (w ++ rest) false = 1 + countWordsAux rest true := by
  match w with
  | [] => exact absurd rfl hw
  | c :: w' =>
    rw [List.cons_append, countWordsAux, if_pos (h c (List.mem_cons_self c w'))]
    simp [countWordsAux_word_append w' rest fun x hx => h x (List.mem_cons_of_mem c hx)]

theorem countWordsAux_space (rest : GoStr) (b : Bool) :
    countWordsAux (32 :: rest) b = countWordsAux rest false := by
  rw [countWordsAux, if_neg]
  decide

theorem countWordsAux_joinSpace (ws : List GoStr) (hne : ws ≠ [])
    (h : ∀ w ∈ ws, w ≠ [] ∧ ∀ c ∈ w, isWordRune c = true) :
    countWordsAux (joinSpace ws) false = ws.length := by
  induction ws with
  | nil => exact absurd rfl hne
  | cons w ws' ih =>
    match ws' with
    | [] =>
      have hw := h w (List.mem_cons_self w [])
      rw [joinSpace]
      have := countWordsAux_word_start w [] hw.1 hw.2
      simpa [countWordsAux] using this
    | w2 :: ws'' =>
      have hw := h w (List.mem_cons_self w (w2 :: ws''))
      rw [joinSpace, countWordsAux_word_start w _ hw.1 hw.2, countWordsAux_space]
      rw [ih (by simp) fun x hx => h x (List.mem_cons_of_mem w hx)]
      simp [List.length_cons]
      omega

theorem joinSpace_map_lower (ws : List GoStr) :
    (joinSpace ws).map lowerRune = joinSpace (ws.map (List.map lowerRune)) := by
  induction ws with
  | nil => rfl
  | cons w ws' ih =>
    match ws' with
    | [] => rfl
    | w2 :: ws'' =>
      rw [joinSpace, List.map_append, List.map_cons, ih]
      have h32 : lowerRune 32 = 32 := by decide
      rw [h32]
      rfl

theorem joinSpace_ne_nil (ws : List GoStr) (hne : ws ≠ [])
    (h : ∀ w ∈ ws, w ≠ []) : joinSpace ws ≠ [] := by
  match ws with
  | [] => exact absurd rfl hne
  | [w] => exact h w (List.mem_cons_self w [])
  | w :: w2 :: ws'' =>
    rw [joinSpace]
    intro hc
    rcases List.append_eq_nil.mp hc with ⟨-, h2⟩
    exact List.cons_ne_nil _ _ h2

/-- C6: the Token Estimator returns 0 on empty input; non-empty text with no
letter/digit rune yields 1; and non-empty text made of `w` space-separated
alphanumeric words and no other characters yields `floor(w * 1.33)` clamped
to at least 1 — computed by lower-casing, counting contiguous letter/digit
runs, multiplying by 1.33 and truncating toward zero (the definition of
`estimateTokens` above). -/
theorem c6_estimator :
    estimateTokens [] = 0
    ∧ (∀ text : GoStr, text ≠ [] → (∀ c ∈ text, isWordRune c = false) →
        estimateTokens text = 1)
    ∧ (∀ ws : List GoStr, ws ≠ [] →
        (∀ w ∈ ws, w ≠ [] ∧ ∀ c ∈ w, isWordRune c = true) →
        estimateTokens (joinSpace ws) = max (ws.length * 133 / 100) 1) := by
  refine ⟨rfl, ?_, ?_⟩
  · intro text hne h
    have hlow : ∀ c ∈ text.map lowerRune, isWordRune c = false := by
      intro c hc
      rcases List.mem_map.mp hc with ⟨a, ha, rfl⟩
      rw [isWordRune_lowerRune]
      exact h a ha
    have hcw : countWordsAux (text.map lowerRune) false = 0 :=
      countWordsAux_nonword _ _ hlow
    rw [estimateTokens, if_neg hne]
    show (if countWordsAux (text.map lowerRune) false * 133 / 100 = 0
          ∧ 0 < (text.map lowerRune).length then 1
          else countWordsAux (text.map lowerRune) false * 133 / 100) = 1
    rw [if_pos]
    refine ⟨by simp [hcw], ?_⟩
    simp only [List.length_map, List.length_pos]
    exact hne
  · intro ws hne h
    have hJne : joinSpace ws ≠ [] := joinSpace_ne_nil ws hne fun w hw => (h w hw).1
    have hcount : countWordsAux (joinSpace (ws.map (List.map lowerRune))) false
        = (ws.map (List.map lowerRune)).length := by
      apply countWordsAux_joinSpace
      · simpa using hne
      · intro w hw
        rcases List.mem_map.mp hw with ⟨a, ha, rfl⟩
        refine ⟨by simpa using (h a ha).1, ?_⟩
        intro c hc
        rcases List.mem_map.mp hc with ⟨x, hx, rfl⟩
        rw [isWordRune_lowerRune]
        exact (h a ha).2 x hx
    have hlen1 : 1 ≤ ws.length := by
      cases ws with
      | nil => exact absurd rfl hne
      | cons a l => simp [List.length_cons]
    have htok : 1 ≤ ws.length * 133 / 100 := by
      have h1 : 1 * 133 ≤ ws.length * 133 := Nat.mul_le_mul_right 133 hlen1
      calc 1 = 133 / 100 := by norm_num
        _ ≤ ws.length * 133 / 100 := Nat.div_le_div_right (by omega)
    rw [estimateTokens, if_neg hJne]
    show (if countWordsAux ((joinSpace ws).map lowerRune) false * 133 / 100 = 0
          ∧ 0 < ((joinSpace ws).map lowerRune).length then 1
          else countWordsAux ((joinSpace ws).map lowerRune) false * 133 / 100)
        = max (ws.length * 133 / 100) 1
    rw [joinSpace_map_lower, hcount, List.length_map]
    rw [if_neg (by intro hc; omega)]
    exact (Nat.max_eq_left htok).symm

/-- Witness for `c6_estimator`: the clamp branch on `"..."` and the
space-separated-words case on `"hello world"` (two words, `floor(2*1.33)=2`). -/
theorem c6_estimator_witness :
    estimateTokens (joinSpace [runes "hello", runes "world"]) = max (2 * 133 / 100) 1
    ∧ estimateTokens (runes "...") = 1 :=
  ⟨c6_estimator.2.2 [runes "hello", runes "world"] (by decide) (by decide),
   c6_estimator.2.1 (runes "...") (by decide) (by decide)⟩

theorem foldl_add_eq_sum {α : Type} (g : α → Nat) (l : List α) :
    ∀ a : Nat, l.foldl (fun acc x => acc + g x) a = a + (l.map g).sum := by
  induction l with
  | nil => intro a; simp
  | cons x xs ih =>
    intro a
    simp only [List.foldl_cons, List.map_cons, List.sum_cons, ih (a + g x)]
    omega

/-- C7: the Content Extractor maps absent content to 0, a plain string to
the Estimator's result; a part list sums per-part contributions, where a
`"text"`-typed part carrying a string text field contributes the Estimator's
result on that text, an `"image_url"` part contributes exactly 85 regardless
of its url or detail, and any other or unparseable part (non-map item,
missing `type`, unrecognized `type`, non-string values) contributes 0; in
particular a list of one text part with text `T` and one image-reference
part yields `estimateTokens T + 85`. -/
theorem c7_content_extractor :
    estimateTokensFromContent .null = 0
    ∧ (∀ s : GoStr, estimateTokensFromContent (.str s) = estimateTokens s)
    ∧ (∀ items : List JsonValue,
        estimateTokensFromContent (.arr items) = (items.map contentItemTokens).sum)
    ∧ (∀ T : GoStr,
        contentItemTokens (.obj [(runes "type", .str (runes "text")), (runes "text", .str T)])
          = estimateTokens T)
    ∧ (∀ u d : GoStr,
        contentItemTokens (.obj [(runes "type", .str (runes "image_url")),
          (runes "image_url", .obj [(runes "url", .str u), (runes "detail", .str d)])]) = 85)
    ∧ (∀ fields, jlookup fields (runes "type") = none → contentItemTokens (.obj fields) = 0)
    ∧ (∀ t fields, jlookup fields (runes "type") = some t →
        isStrVal t (runes "text") = false → isStrVal t (runes "image_url") = false →
        contentItemTokens (.obj fields) = 0)
    ∧ (∀ s : GoStr, contentItemTokens (.str s) = 0)
    ∧ (∀ n : Int, contentItemTokens (.num n) = 0)
    ∧ (∀ T : GoStr,
        estimateTokensFromContent (.arr
          [.obj [(runes "type", .str (runes "text")), (runes "text", .str T)],
           .obj [(runes "type", .str (runes "image_url")),
             (runes "image_url", .obj [(runes "url", .str (runes "u")),
               (runes "detail", .str (runes "auto"))])]])
          = estimateTokens T + 85) := by
  refine ⟨rfl, fun s => rfl, ?_, fun T => rfl, fun u d => rfl, ?_, ?_, fun s => rfl,
    fun n => rfl, ?_⟩
  · intro items
    simp only [estimateTokensFromContent]
    simpa using foldl_add_eq_sum contentItemTokens items 0
  · intro fields hnone
    simp [contentItemTokens, hnone]
  · intro t fields hsome ht hi
    simp [contentItemTokens, hsome, ht, hi]
  · intro T
    simp only [estimateTokensFromContent, List.foldl_cons, List.foldl_nil, Nat.zero_add]
    rfl

/-- Witness for `c7_content_extractor`: parts with a missing or unrecognized
`type` contribute 0. -/
theorem c7_content_extractor_witness :
    contentItemTokens (.obj [(runes "kind", .str (runes "text"))]) = 0
    ∧ contentItemTokens (.obj [(runes "type", .str (runes "audio"))]) = 0 := by
  obtain ⟨-, -, -, -, -, h6, h7, -⟩ := c7_content_extractor
  exact ⟨h6 _ rfl, h7 _ _ rfl rfl rfl⟩

theorem applySink_events (s : Sink) (a : UpAction) :
    (applySink s a).events = s.events ++ [actionEvent a] := by
  cases a <;> rfl

theorem applySink_bodyOut (s : Sink) (a : UpAction) :
    (applySink s a).bodyOut = s.bodyOut ++ writeOf a := by
  cases a <;> simp [applySink, sinkSet, sinkWriteHeader, sinkWrite, writeOf]

theorem writesConcat_cons (a : UpAction) (as : List UpAction) :
    writesConcat (a :: as) = writeOf a ++ writesConcat as := by
  cases a <;> simp [writesConcat, writeOf]

theorem runOnSink_cons (s : Sink) (a : UpAction) (as : List UpAction) :
    runOnSink s (a :: as) = runOnSink (applySink s a) as := rfl

theorem runOnSink_events (as : List UpAction) :
    ∀ s : Sink, (runOnSink s as).events = s.events ++ as.map actionEvent := by
  induction as with
  | nil => intro s; simp [runOnSink]
  | cons a as ih =>
    intro s
    rw [runOnSink_cons, ih, applySink_events, List.map_cons, List.append_assoc,
      List.singleton_append]

theorem runOnSink_bodyOut (as : List UpAction) :
    ∀ s : Sink, (runOnSink s as).bodyOut = s.bodyOut ++ writesConcat as := by
  induction as with
  | nil => intro s; simp [runOnSink, writesConcat]
  | cons a as ih =>
    intro s
    rw [runOnSink_cons, ih, applySink_bodyOut, writesConcat_cons, List.append_assoc]

theorem applyRW_real_events (w : RespWriter) (a : UpAction) :
    (applyRW w a).real.events = w.real.events ++ [actionEvent a] := by
  cases a <;> rfl

theorem applyRW_real_bodyOut (w : RespWriter) (a : UpAction) :
    (applyRW w a).real.bodyOut = w.real.bodyOut ++ writeOf a := by
  cases a <;> simp [applyRW, sinkSet, sinkWriteHeader, sinkWrite, writeOf]

theorem applyRW_body (w : RespWriter) (a : UpAction) :
    (applyRW w a).body = w.body ++ writeOf a := by
  cases a <;> simp [applyRW, writeOf]

theorem runOnRW_cons (w : RespWriter) (a : UpAction) (as : List UpAction) :
    runOnRW w (a :: as) = runOnRW (applyRW w a) as := rfl

theorem runOnRW_real_events (as : List UpAction) :
    ∀ w : RespWriter, (runOnRW w as).real.events = w.real.events ++ as.map actionEvent := by
  induction as with
  | nil => intro w; simp [runOnRW]
  | cons a as ih =>
    intro w
    rw [runOnRW_cons, ih, applyRW_real_events, List.map_cons, List.append_assoc,
      List.singleton_append]

theorem runOnRW_real_bodyOut (as : List UpAction) :
    ∀ w : RespWriter, (runOnRW w as).real.bodyOut = w.real.bodyOut ++ writesConcat as := by
  induction as with
  | nil => intro w; simp [runOnRW, writesConcat]
  | cons a as ih =>
    intro w
    rw [runOnRW_cons, ih, applyRW_real_bodyOut, writesConcat_cons, List.append_assoc]

theorem runOnRW_body (as : List UpAction) :
    ∀ w : RespWriter, (runOnRW w as).body = w.body ++ writesConcat as := by
  induction as with
  | nil => intro w; simp [runOnRW, writesConcat]
  | cons a as ih =>
    intro w
    rw [runOnRW_cons, ih, applyRW_body, writesConcat_cons, List.append_assoc]

theorem isInvokeEv_actionEvent (a : UpAction) : isInvokeEv (actionEvent a) = false := by
  cases a <;> rfl

theorem filter_invoke_map_actionEvent (as : List UpAction) :
    (as.map actionEvent).filter isInvokeEv = [] := by
  induction as with
  | nil => rfl
  | cons a as ih => simp [List.filter_cons, isInvokeEv_actionEvent, ih]

@[simp] theorem filter_invoke_runOnSink (s : Sink) (as : List UpAction) :
    (runOnSink s as).events.filter isInvokeEv = s.events.filter isInvokeEv := by
  rw [runOnSink_events, List.filter_append, filter_invoke_map_actionEvent, List.append_nil]

@[simp] theorem filter_invoke_runOnRW (w : RespWriter) (as : List UpAction) :
    (runOnRW w as).real.events.filter isInvokeEv = w.real.events.filter isInvokeEv := by
  rw [runOnRW_real_events, List.filter_append, filter_invoke_map_actionEvent, List.append_nil]

@[simp] theorem filter_invoke_sinkInvoke (s : Sink) (q : HttpRequest) :
    (sinkInvoke s q).events.filter isInvokeEv
      = s.events.filter isInvokeEv ++ [Event.invokeNext q] := by
  simp [sinkInvoke, List.filter_append, isInvokeEv]

@[simp] theorem filter_invoke_markDecided (s : Sink) :
    (markDecided s).events.filter isInvokeEv = s.events.filter isInvokeEv := by
  simp [markDecided, List.filter_append, isInvokeEv]

@[simp] theorem filter_invoke_sinkSet (s : Sink) (k v : GoStr) :
    (sinkSet s k v).events.filter isInvokeEv = s.events.filter isInvokeEv := by
  simp [sinkSet, List.filter_append, isInvokeEv]

@[simp] theorem filter_invoke_setEstimated (tc : TokenCounterCfg) (s : Sink)
    (q : SimpleRequest) (r : SimpleResponse) :
    (setEstimatedTokens tc s q r).events.filter isInvokeEv = s.events.filter isInvokeEv := by
  simp [setEstimatedTokens]

@[simp] theorem filter_invoke_setUsage (tc : TokenCounterCfg) (s : Sink) (u : Usage) :
    (setUsageTokens tc s u).events.filter isInvokeEv = s.events.filter isInvokeEv := by
  unfold setUsageTokens
  dsimp only
  split_ifs <;> simp

@[simp] theorem filter_invoke_setActual (tc : TokenCounterCfg) (s : Sink)
    (r : SimpleResponse) :
    (setActualTokens tc s r).events.filter isInvokeEv = s.events.filter isInvokeEv := by
  unfold setActualTokens
  simp

@[simp] theorem filter_invoke_engineTail_v3 (decResp : GoStr → Option SimpleResponse)
    (tc : TokenCounterCfg) (q : SimpleRequest) (w : RespWriter) :
    (engineTail_v3 decResp tc q w).events.filter isInvokeEv
      = w.real.events.filter isInvokeEv := by
  unfold engineTail_v3
  dsimp only
  split
  · simp
  · split
    · simp
    · split <;> simp

@[simp] theorem filter_invoke_engineTail_v2 (decResp : GoStr → OpenAIResponse × Bool)
    (tc : TokenCounterCfg) (q : OpenAIRequest) (w : RespWriter) :
    (engineTail_v2 decResp tc q w).events.filter isInvokeEv
      = w.real.events.filter isInvokeEv := by
  unfold engineTail_v2
  dsimp only
  split
  · split
    · simp
    · simp
  · simp

@[simp] theorem filter_invoke_engineTail_v1 (decResp : GoStr → OpenAIResponse × Bool)
    (tc : TokenCounterCfg) (q : OpenAIRequest) (w : RespWriter) :
    (engineTail_v1 decResp tc q w).events.filter isInvokeEv
      = w.real.events.filter isInvokeEv := by
  unfold engineTail_v1
  dsimp only
  split
  · split <;> simp
  · simp

@[simp] theorem sinkSet_headers (s : Sink) (k v : GoStr) :
    (sinkSet s k v).headers = hSet s.headers k v := rfl

@[simp] theorem sinkSet_bodyOut (s : Sink) (k v : GoStr) :
    (sinkSet s k v).bodyOut = s.bodyOut := rfl

@[simp] theorem sinkSet_events (s : Sink) (k v : GoStr) :
    (sinkSet s k v).events = s.events ++ [Event.setHeader k v] := rfl

@[simp] theorem markDecided_headers (s : Sink) : (markDecided s).headers = s.headers := rfl

@[simp] theorem markDecided_bodyOut (s : Sink) : (markDecided s).bodyOut = s.bodyOut := rfl

@[simp] theorem markDecided_events (s : Sink) :
    (markDecided s).events = s.events ++ [Event.engineDecided] := rfl

@[simp] theorem sinkInvoke_headers (s : Sink) (q : HttpRequest) :
    (sinkInvoke s q).headers = s.headers := rfl

@[simp] theorem sinkInvoke_bodyOut (s : Sink) (q : HttpRequest) :
    (sinkInvoke s q).bodyOut = s.bodyOut := rfl

@[simp] theorem sinkInvoke_events (s : Sink) (q : HttpRequest) :
    (sinkInvoke s q).events = s.events ++ [Event.invokeNext q] := rfl

@[simp] theorem emptySink_headers : emptySink.headers = [] := rfl

@[simp] theorem emptySink_bodyOut : emptySink.bodyOut = [] := rfl

@[simp] theorem emptySink_events : emptySink.events = [] := rfl

@[simp] theorem setEstimatedTokens_bodyOut (tc : TokenCounterCfg) (s : Sink)
    (q : SimpleRequest) (r : SimpleResponse) :
    (setEstimatedTokens tc s q r).bodyOut = s.bodyOut := rfl

@[simp] theorem setUsageTokens_bodyOut (tc : TokenCounterCfg) (s : Sink) (u : Usage) :
    (setUsageTokens tc s u).bodyOut = s.bodyOut := by
  unfold setUsageTokens
  dsimp only
  split_ifs <;> rfl

@[simp] theorem setActualTokens_bodyOut (tc : TokenCounterCfg) (s : Sink)
    (r : SimpleResponse) : (setActualTokens tc s r).bodyOut = s.bodyOut := by
  unfold setActualTokens
  simp

theorem hGetO_append (l m : List (GoStr × GoStr)) (k : GoStr) :
    hGetO (l ++ m) k = match hGetO l k with
      | some v => some v
      | none => hGetO m k := by
  induction l with
  | nil => simp [hGetO]
  | cons p rest ih =>
    obtain ⟨k0, v0⟩ := p
    by_cases h0 : k0 = k
    · simp [hGetO, h0]
    · simp only [List.cons_append, hGetO, if_neg h0]
      exact ih

theorem hGetO_filterNe (k : GoStr) (l : List (GoStr × GoStr)) :
    hGetO (l.filter fun p => decide (p.1 ≠ k)) k = none := by
  induction l with
  | nil => rfl
  | cons p rest ih =>
    obtain ⟨k0, v0⟩ := p
    by_cases h0 : k0 = k
    · simpa [List.filter_cons, h0] using ih
    · simpa [List.filter_cons, h0, hGetO] using ih

theorem hGetO_filterNe_other (k k' : GoStr) (hne : k' ≠ k) (l : List (GoStr × GoStr)) :
    hGetO (l.filter fun p => decide (p.1 ≠ k)) k' = hGetO l k' := by
  induction l with
  | nil => rfl
  | cons p rest ih =>
    obtain ⟨k0, v0⟩ := p
    by_cases h0 : k0 = k
    · have hkk' : k ≠ k' := fun hc => hne hc.symm
      simpa [List.filter_cons, h0, hGetO, hkk'] using ih
    · by_cases h0' : k0 = k'
      · simp [List.filter_cons, h0, hGetO, h0', hne]
      · simpa [List.filter_cons, h0, hGetO, h0'] using ih

theorem hGetO_hSet_self (hs : List (GoStr × GoStr)) (k v : GoStr) :
    hGetO (hSet hs k v) k = some v := by
  unfold hSet
  rw [hGetO_append, hGetO_filterNe]
  simp [hGetO]

theorem hGetO_hSet_other (hs : List (GoStr × GoStr)) (k v k' : GoStr) (hne : k' ≠ k) :
    hGetO (hSet hs k v) k' = hGetO hs k' := by
  unfold hSet
  rw [hGetO_append, hGetO_filterNe_other k k' hne]
  cases h : hGetO hs k' with
  | some v' => rfl
  | none =>
    rw [hGetO, if_neg fun hc => hne hc.symm]
    rfl

theorem serveHTTP_v3_inscope (decReq : GoStr → Option SimpleRequest)
    (decResp : GoStr → Option SimpleResponse) (tc : TokenCounterCfg)
    (next : HttpRequest → List UpAction) (req : HttpRequest) (bs : GoStr) (q : SimpleRequest)
    (hm : req.method = runes "POST")
    (hp : hasSubstr req.path (runes "/chat/completions") = true)
    (hb : req.body = some bs) (hd : decReq bs = some q) :
    serveHTTP_v3 decReq decResp tc next req emptySink
      = engineTail_v3 decResp tc q (ranRW next { req with body := some bs }) := by
  unfold serveHTTP_v3 ranRW
  rw [if_neg (by simp [hm]), if_neg (by simp [hp]), hb]
  dsimp only
  rw [hd]

theorem serveHTTP_v2_inscope (decReq : GoStr → Option OpenAIRequest)
    (decResp : GoStr → OpenAIResponse × Bool) (tc : TokenCounterCfg)
    (next : HttpRequest → List UpAction) (req : HttpRequest) (bs : GoStr) (q : OpenAIRequest)
    (hm : req.method = runes "POST")
    (hp : hasSubstr req.path (runes "/chat/completions") = true)
    (hb : req.body = some bs) (hd : decReq bs = some q) :
    serveHTTP_v2 decReq decResp tc next req emptySink
      = engineTail_v2 decResp tc q (ranRW next { req with body := some bs }) := by
  unfold serveHTTP_v2 ranRW
  rw [if_neg (by simp [hm]), if_neg (by simp [hp]), hb]
  dsimp only
  rw [hd]

theorem serveHTTP_v1_inscope (decReq : GoStr → Option OpenAIRequest)
    (decResp : GoStr → OpenAIResponse × Bool) (tc : TokenCounterCfg)
    (next : HttpRequest → List UpAction) (req : HttpRequest) (bs : GoStr) (q : OpenAIRequest)
    (hm : req.method = runes "POST")
    (hp : hasSubstr req.path (runes "/chat/completions") = true)
    (hb : req.body = some bs) (hd : decReq bs = some q) :
    serveHTTP_v1 decReq decResp tc next req emptySink
      = engineTail_v1 decResp tc q (ranRW next { req with body := some bs }) := by
  unfold serveHTTP_v1 ranRW
  rw [if_neg (by simp [hm]), if_neg (by simp [hp]), hb]
  dsimp only
  rw [hd]

/-- C5: for every request that is not a POST, or whose URL path does not
contain "/chat/completions", every variant forwards the exchange through
untouched: its entire effect is to hand the real writer to the upstream
handler, so it sets neither token header. -/
theorem c5_bypass (decReq3 : GoStr → Option SimpleRequest)
    (decResp3 : GoStr → Option SimpleResponse)
    (decReq12 : GoStr → Option OpenAIRequest) (decResp12 : GoStr → OpenAIResponse × Bool)
    (tc : TokenCounterCfg) (next : HttpRequest → List UpAction) (req : HttpRequest) (rw : Sink)
    (h : req.method ≠ runes "POST" ∨ hasSubstr req.path (runes "/chat/completions") = false) :
    serveHTTP_v1 decReq12 decResp12 tc next req rw = runOnSink (sinkInvoke rw req) (next req)
    ∧ serveHTTP_v2 decReq12 decResp12 tc next req rw = runOnSink (sinkInvoke rw req) (next req)
    ∧ serveHTTP_v3 decReq3 decResp3 tc next req rw = runOnSink (sinkInvoke rw req) (next req) := by
  refine ⟨?_, ?_, ?_⟩
  · unfold serveHTTP_v1
    rcases h with h' | h'
    · rw [if_pos h']
    · by_cases hm : req.method ≠ runes "POST"
      · rw [if_pos hm]
      · rw [if_neg hm, if_pos (by simp [h'])]
  · unfold serveHTTP_v2
    rcases h with h' | h'
    · rw [if_pos h']
    · by_cases hm : req.method ≠ runes "POST"
      · rw [if_pos hm]
      · rw [if_neg hm, if_pos (by simp [h'])]
  · unfold serveHTTP_v3
    rcases h with h' | h'
    · rw [if_pos h']
    · by_cases hm : req.method ≠ runes "POST"
      · rw [if_pos hm]
      · rw [if_neg hm, if_pos (by simp [h'])]

/-- Witness for `c5_bypass`: `GET /health` passes through variant 3
untouched and the response carries no token-count header. -/
theorem c5_bypass_witness :
    serveHTTP_v3 exDecReq exDecRespZero defaultCfg exNextOk exHealthRequest emptySink
      = runOnSink (sinkInvoke emptySink exHealthRequest) (exNextOk exHealthRequest)
    ∧ hGetO (serveHTTP_v3 exDecReq exDecRespZero defaultCfg exNextOk exHealthRequest
        emptySink).headers (runes "X-Request-Token-Count") = none
    ∧ hGetO (serveHTTP_v3 exDecReq exDecRespZero defaultCfg exNextOk exHealthRequest
        emptySink).headers (runes "X-Response-Token-Count") = none :=
  ⟨(c5_bypass exDecReq exDecRespZero exDecReq12 exDecResp12 defaultCfg exNextOk
      exHealthRequest emptySink (Or.inl (by decide))).2.2,
   by decide, by decide⟩

/-- C8: for an in-scope POST whose path contains "/chat/completions" and
whose body stream reads as `bs`, every variant invokes the upstream handler
exactly once, with a request equal to the inbound one whose body is exactly
the original bytes `bs` (the reconstructed replay buffer), whatever the
request decoder returns. -/
theorem c8_body_replay (decReq3 : GoStr → Option SimpleRequest)
    (decResp3 : GoStr → Option SimpleResponse)
    (decReq12 : GoStr → Option OpenAIRequest) (decResp12 : GoStr → OpenAIResponse × Bool)
    (tc : TokenCounterCfg) (next : HttpRequest → List UpAction) (req : HttpRequest) (bs : GoStr)
    (hm : req.method = runes "POST")
    (hp : hasSubstr req.path (runes "/chat/completions") = true)
    (hb : req.body = some bs) :
    ({ req with body := some bs } : HttpRequest) = req
    ∧ (serveHTTP_v1 decReq12 decResp12 tc next req emptySink).events.filter isInvokeEv
        = [Event.invokeNext { req with body := some bs }]
    ∧ (serveHTTP_v2 decReq12 decResp12 tc next req emptySink).events.filter isInvokeEv
        = [Event.invokeNext { req with body := some bs }]
    ∧ (serveHTTP_v3 decReq3 decResp3 tc next req emptySink).events.filter isInvokeEv
        = [Event.invokeNext { req with body := some bs }] := by
  have hre : ({ req with body := some bs } : HttpRequest) = req := by
    cases req with
    | mk m p b => simp only at hb; simp [hb]
  refine ⟨hre, ?_, ?_, ?_⟩
  · unfold serveHTTP_v1
    rw [if_neg (by simp [hm]), if_neg (by simp [hp]), hb]
    dsimp only
    cases hd : decReq12 bs <;> simp [emptySink, isInvokeEv]
  · unfold serveHTTP_v2
    rw [if_neg (by simp [hm]), if_neg (by simp [hp]), hb]
    dsimp only
    cases hd : decReq12 bs <;> simp [emptySink, isInvokeEv]
  · unfold serveHTTP_v3
    rw [if_neg (by simp [hm]), if_neg (by simp [hp]), hb]
    dsimp only
    cases hd : decReq3 bs <;> simp [emptySink, isInvokeEv]

/-- Witness for `c8_body_replay`: the example in-scope request's bytes are
the body the upstream receives. -/
theorem c8_body_replay_witness :
    ({ exRequest with body := some exReqBody } : HttpRequest) = exRequest
    ∧ (serveHTTP_v1 exDecReq12 exDecResp12 defaultCfg exNextPlain exRequest
        emptySink).events.filter isInvokeEv
      = [Event.invokeNext { exRequest with body := some exReqBody }]
    ∧ (serveHTTP_v2 exDecReq12 exDecResp12 defaultCfg exNextPlain exRequest
        emptySink).events.filter isInvokeEv
      = [Event.invokeNext { exRequest with body := some exReqBody }]
    ∧ (serveHTTP_v3 exDecReq exDecResp defaultCfg exNextPlain exRequest
        emptySink).events.filter isInvokeEv
      = [Event.invokeNext { exRequest with body := some exReqBody }] :=
  c8_body_replay exDecReq exDecResp exDecReq12 exDecResp12 defaultCfg exNextPlain
    exRequest exReqBody (by decide) (by decide) (by decide)

/-- C9: on every path of every variant — bypass by method or path, body-read
failure, request-parse failure, OK or non-OK captured status, response-parse
failure, cache hit or miss — the upstream handler is invoked exactly once. -/
theorem c9_invoke_once (decReq3 : GoStr → Option SimpleRequest)
    (decResp3 : GoStr → Option SimpleResponse)
    (decReq12 : GoStr → Option OpenAIRequest) (decResp12 : GoStr → OpenAIResponse × Bool)
    (tc : TokenCounterCfg) (next : HttpRequest → List UpAction) (req : HttpRequest) :
    ((serveHTTP_v1 decReq12 decResp12 tc next req emptySink).events.filter isInvokeEv).length = 1
    ∧ ((serveHTTP_v2 decReq12 decResp12 tc next req emptySink).events.filter isInvokeEv).length = 1
    ∧ ((serveHTTP_v3 decReq3 decResp3 tc next req emptySink).events.filter isInvokeEv).length = 1 := by
  refine ⟨?_, ?_, ?_⟩
  · unfold serveHTTP_v1
    repeat' split
    all_goals simp [emptySink, isInvokeEv]
  · unfold serveHTTP_v2
    repeat' split
    all_goals simp [emptySink, isInvokeEv]
  · unfold serveHTTP_v3
    repeat' split
    all_goals simp [emptySink, isInvokeEv]

theorem foldl_msg12 (l : List OAMessage) :
    ∀ a : Nat,
      l.foldl (fun acc message =>
          acc + estimateTokens message.content + estimateTokens message.role + 4) a
        = a + (l.map fun m => estimateTokens m.content + estimateTokens m.role + 4).sum := by
  induction l with
  | nil => intro a; simp
  | cons x xs ih =>
    intro a
    simp only [List.foldl_cons, List.map_cons, List.sum_cons, ih]
    omega

theorem foldl_msg3 (l : List Message) :
    ∀ a : Nat,
      l.foldl (fun acc message =>
          acc + estimateTokensFromContent message.content + estimateTokens message.role + 4) a
        = a + (l.map fun m =>
            estimateTokensFromContent m.content + estimateTokens m.role + 4).sum := by
  induction l with
  | nil => intro a; simp
  | cons x xs ih =>
    intro a
    simp only [List.foldl_cons, List.map_cons, List.sum_cons, ih]
    omega

theorem countRequestTokens_v12_eq (req : OpenAIRequest) :
    countRequestTokens_v12 req
      = (req.messages.map fun m => estimateTokens m.content + estimateTokens m.role + 4).sum
        + estimateTokens req.model + 2 := by
  unfold countRequestTokens_v12
  dsimp only
  rw [foldl_msg12 req.messages 0]
  omega

theorem countRequestTokens_v3_eq (req : SimpleRequest) :
    countRequestTokens_v3 req
      = (req.messages.map fun m =>
          estimateTokensFromContent m.content + estimateTokens m.role + 4).sum
        + estimateTokens req.model + 2 := by
  unfold countRequestTokens_v3
  dsimp only
  rw [foldl_msg3 req.messages 0]
  omega

theorem two_le_countRequestTokens_v12 (req : OpenAIRequest) :
    2 ≤ countRequestTokens_v12 req := by
  have h := countRequestTokens_v12_eq req
  omega

theorem two_le_countRequestTokens_v3 (req : SimpleRequest) :
    2 ≤ countRequestTokens_v3 req := by
  have h := countRequestTokens_v3_eq req
  omega

/-- C10: in both request-envelope shapes, the locally estimated
request-token count is the sum over messages of content-estimate +
role-estimate + 4, plus model-estimate + 2; hence it is at least 2, and its
`strconv.Itoa` image — the value an estimated request-token header would
carry — is never the string "0", even for an envelope with no messages and
an empty model. -/
theorem c10_request_token_floor :
    (∀ req : OpenAIRequest,
      countRequestTokens_v12 req
        = (req.messages.map fun m => estimateTokens m.content + estimateTokens m.role + 4).sum
          + estimateTokens req.model + 2
      ∧ 2 ≤ countRequestTokens_v12 req
      ∧ itoa (countRequestTokens_v12 req : Int) ≠ runes "0")
    ∧ (∀ req : SimpleRequest,
      countRequestTokens_v3 req
        = (req.messages.map fun m =>
            estimateTokensFromContent m.content + estimateTokens m.role + 4).sum
          + estimateTokens req.model + 2
      ∧ 2 ≤ countRequestTokens_v3 req
      ∧ itoa (countRequestTokens_v3 req : Int) ≠ runes "0") := by
  constructor
  · intro req
    refine ⟨countRequestTokens_v12_eq req, two_le_countRequestTokens_v12 req, ?_⟩
    have h2 := two_le_countRequestTokens_v12 req
    exact itoa_natCast_ne_zero_str (by omega)
  · intro req
    refine ⟨countRequestTokens_v3_eq req, two_le_countRequestTokens_v3 req, ?_⟩
    have h2 := two_le_countRequestTokens_v3 req
    exact itoa_natCast_ne_zero_str (by omega)

theorem ranRW_real_events (next : HttpRequest → List UpAction) (req' : HttpRequest) :
    (ranRW next req').real.events
      = Event.invokeNext req' :: (next req').map actionEvent := by
  unfold ranRW
  rw [runOnRW_real_events]
  simp [sinkInvoke]

theorem ranRW_real_bodyOut (next : HttpRequest → List UpAction) (req' : HttpRequest) :
    (ranRW next req').real.bodyOut = writesConcat (next req') := by
  unfold ranRW
  rw [runOnRW_real_bodyOut]
  simp [sinkInvoke]

@[simp] theorem engineTail_v3_bodyOut (decResp : GoStr → Option SimpleResponse)
    (tc : TokenCounterCfg) (q : SimpleRequest) (w : RespWriter) :
    (engineTail_v3 decResp tc q w).bodyOut = w.real.bodyOut := by
  unfold engineTail_v3
  dsimp only
  split
  · simp
  · split
    · simp
    · split <;> simp

theorem engineTail_v3_events (decResp : GoStr → Option SimpleResponse)
    (tc : TokenCounterCfg) (q : SimpleRequest) (w : RespWriter) :
    ∃ tail : List Event, allSetHeaders tail = true ∧
      (engineTail_v3 decResp tc q w).events
        = w.real.events ++ Event.engineDecided :: tail := by
  unfold engineTail_v3
  dsimp only
  split
  · exact ⟨[], rfl, by simp⟩
  · split
    · exact ⟨[], rfl, by simp⟩
    · split
      · rename_i simpleResp heq hcache
        refine ⟨[Event.setHeader tc.requestTokenHeader (itoa (countRequestTokens_v3 q : Int)),
          Event.setHeader tc.responseTokenHeader (itoa (countResponseTokens_v3 simpleResp))],
          rfl, ?_⟩
        simp [setEstimatedTokens]
      · rename_i simpleResp heq hcache
        unfold setActualTokens setUsageTokens
        dsimp only
        split_ifs with h1 h2 h2
        · refine ⟨[Event.setHeader tc.requestTokenHeader (itoa simpleResp.usage.promptTokens),
            Event.setHeader tc.responseTokenHeader (itoa simpleResp.usage.completionTokens)],
            rfl, ?_⟩
          simp
        · exact ⟨[Event.setHeader tc.responseTokenHeader (itoa simpleResp.usage.completionTokens)],
            rfl, by simp⟩
        · exact ⟨[Event.setHeader tc.requestTokenHeader (itoa simpleResp.usage.promptTokens)],
            rfl, by simp⟩
        · exact ⟨[], rfl, by simp⟩

/-- C1 counterexample: at this concrete in-scope request (readable and
parseable body, upstream writing a 200 status and body bytes) the upstream's
status and body writes reach the real client-facing sink strictly before the
decision point — the wrapper's `Write`/`WriteHeader` forward immediately —
contradicting the claim that nothing reaches the real sink until the
Accounting Decision Engine has decided, with one single final flush. -/
theorem c1_counterexample :
    outputBeforeDecision
      (serveHTTP_v3 exDecReq exDecRespZero defaultCfg exNextHit exRequest emptySink).events
      = true := by decide

/-- C1 amended: for every in-scope request, the capturer forwards rather
than withholds: the real sink's trace is exactly the upstream invocation
followed by every upstream operation in order (each forwarded at the moment
it is performed, hence before the decision marker), then the decision
marker, after which the middleware performs header sets only; the client's
body bytes are exactly the concatenation of the upstream's writes — one
forwarded write per upstream `Write`, not one final flush.  (The wrapper's
`Write` and `WriteHeader` are identical in all three variants; stated for
the cache-aware variant.) -/
theorem c1_amended_tee_trace (decReq : GoStr → Option SimpleRequest)
    (decResp : GoStr → Option SimpleResponse) (tc : TokenCounterCfg)
    (next : HttpRequest → List UpAction) (req : HttpRequest) (bs : GoStr) (q : SimpleRequest)
    (hm : req.method = runes "POST")
    (hp : hasSubstr req.path (runes "/chat/completions") = true)
    (hb : req.body = some bs) (hd : decReq bs = some q) :
    (serveHTTP_v3 decReq decResp tc next req emptySink).events.take
        (tracePre next { req with body := some bs }).length
      = tracePre next { req with body := some bs }
    ∧ allSetHeaders ((serveHTTP_v3 decReq decResp tc next req emptySink).events.drop
        (tracePre next { req with body := some bs }).length) = true
    ∧ (serveHTTP_v3 decReq decResp tc next req emptySink).bodyOut
      = writesConcat (next { req with body := some bs }) := by
  rw [serveHTTP_v3_inscope decReq decResp tc next req bs q hm hp hb hd]
  obtain ⟨tail, htail, hev⟩ :=
    engineTail_v3_events decResp tc q (ranRW next { req with body := some bs })
  rw [ranRW_real_events] at hev
  have hev' : (engineTail_v3 decResp tc q (ranRW next { req with body := some bs })).events
      = tracePre next { req with body := some bs } ++ tail := by
    rw [hev]
    simp [tracePre]
  refine ⟨?_, ?_, ?_⟩
  · rw [hev', List.take_left]
  · rw [hev', List.drop_left]
    exact htail
  · rw [engineTail_v3_bodyOut, ranRW_real_bodyOut]

/-- Observable header effect of the guarded usage-header sets, on a sink
whose token headers are unset: each header carries the Itoa image of its
usage count when that count is positive, and stays absent otherwise. -/
theorem setUsageTokens_hGet (tc : TokenCounterCfg) (s : Sink) (u : Usage)
    (hkeys : tc.requestTokenHeader ≠ tc.responseTokenHeader)
    (hup1 : hGetO s.headers tc.requestTokenHeader = none)
    (hup2 : hGetO s.headers tc.responseTokenHeader = none) :
    ((0 : Int) < u.promptTokens →
      hGetO (setUsageTokens tc s u).headers tc.requestTokenHeader
        = some (itoa u.promptTokens))
    ∧ (u.promptTokens ≤ 0 →
      hGetO (setUsageTokens tc s u).headers tc.requestTokenHeader = none)
    ∧ ((0 : Int) < u.completionTokens →
      hGetO (setUsageTokens tc s u).headers tc.responseTokenHeader
        = some (itoa u.completionTokens))
    ∧ (u.completionTokens ≤ 0 →
      hGetO (setUsageTokens tc s u).headers tc.responseTokenHeader = none) := by
  unfold setUsageTokens
  dsimp only
  split_ifs with h1 h2 h2
  · refine ⟨fun _ => ?_, fun hle => absurd h2 (not_lt.mpr hle), fun _ => ?_,
      fun hle => absurd h1 (not_lt.mpr hle)⟩
    · simp only [sinkSet_headers]
      rw [hGetO_hSet_other _ _ _ _ hkeys, hGetO_hSet_self]
    · simp only [sinkSet_headers]
      rw [hGetO_hSet_self]
  · refine ⟨fun hp0 => absurd hp0 h2, fun _ => ?_, fun _ => ?_,
      fun hle => absurd h1 (not_lt.mpr hle)⟩
    · simp only [sinkSet_headers]
      rw [hGetO_hSet_other _ _ _ _ hkeys]
      exact hup1
    · simp only [sinkSet_headers]
      rw [hGetO_hSet_self]
  · refine ⟨fun _ => ?_, fun hle => absurd h2 (not_lt.mpr hle),
      fun hc0 => absurd hc0 h1, fun _ => ?_⟩
    · simp only [sinkSet_headers]
      rw [hGetO_hSet_self]
    · simp only [sinkSet_headers]
      rw [hGetO_hSet_other _ _ _ _ (Ne.symm hkeys)]
      exact hup2
  · exact ⟨fun hp0 => absurd hp0 h2, fun _ => hup1,
      fun hc0 => absurd hc0 h1, fun _ => hup2⟩

/-- C2 counterexample: in-scope request, captured 200 with
`X-Cache-Status: Hit` and a body parsing to an all-zero usage record (the
typical cached response): the response-token header is set to the string
"0" — the upstream's zero completion count, not a non-zero local estimate —
and the body forwarded to the client is byte-identical to the upstream's,
so its `usage` object has not been rewritten. -/
theorem c2_counterexample :
    hGetO (serveHTTP_v3 exDecReq exDecRespZero defaultCfg exNextHit exRequest
        emptySink).headers (runes "X-Response-Token-Count") = some (runes "0")
    ∧ (serveHTTP_v3 exDecReq exDecRespZero defaultCfg exNextHit exRequest emptySink).bodyOut
      = exRespBody := by decide

/-- C2 amended: on a captured 200 whose body parses and whose
`X-Cache-Status` header equals `Hit`, the cache-aware variant sets the
request-token header to the locally estimated count (whose Itoa image is
never "0"), sets the response-token header to the Itoa image of the
*upstream-reported* completion count (`countResponseTokens` of part_000
returns `usage.completion_tokens` verbatim, zero included), and forwards
the body unmodified — no usage rewrite takes place. -/
theorem c2_amended_cache_hit (decReq : GoStr → Option SimpleRequest)
    (decResp : GoStr → Option SimpleResponse) (tc : TokenCounterCfg)
    (next : HttpRequest → List UpAction) (req : HttpRequest) (bs : GoStr)
    (q : SimpleRequest) (r : SimpleResponse)
    (hm : req.method = runes "POST")
    (hp : hasSubstr req.path (runes "/chat/completions") = true)
    (hb : req.body = some bs) (hd : decReq bs = some q)
    (hkeys : tc.requestTokenHeader ≠ tc.responseTokenHeader)
    (hstat : (ranRW next { req with body := some bs }).statusCode = 200)
    (hr : decResp (ranRW next { req with body := some bs }).body = some r)
    (hcache : hGetD (ranRW next { req with body := some bs }).real.headers
        (runes "X-Cache-Status") = runes "Hit") :
    hGetO (serveHTTP_v3 decReq decResp tc next req emptySink).headers tc.requestTokenHeader
      = some (itoa (countRequestTokens_v3 q : Int))
    ∧ hGetO (serveHTTP_v3 decReq decResp tc next req emptySink).headers tc.requestTokenHeader
      ≠ some (runes "0")
    ∧ hGetO (serveHTTP_v3 decReq decResp tc next req emptySink).headers
        tc.responseTokenHeader = some (itoa r.usage.completionTokens)
    ∧ (serveHTTP_v3 decReq decResp tc next req emptySink).bodyOut
      = writesConcat (next { req with body := some bs }) := by
  have hv3 : serveHTTP_v3 decReq decResp tc next req emptySink
      = setEstimatedTokens tc
          (markDecided (ranRW next { req with body := some bs }).real) q r := by
    rw [serveHTTP_v3_inscope decReq decResp tc next req bs q hm hp hb hd]
    unfold engineTail_v3
    dsimp only
    rw [if_neg (by simp [hstat]), hr]
    dsimp only
    rw [markDecided_headers, if_pos hcache]
  have hreq : hGetO (serveHTTP_v3 decReq decResp tc next req emptySink).headers
      tc.requestTokenHeader = some (itoa (countRequestTokens_v3 q : Int)) := by
    rw [hv3]
    unfold setEstimatedTokens
    simp only [sinkSet_headers]
    rw [hGetO_hSet_other _ _ _ _ hkeys, hGetO_hSet_self]
  refine ⟨hreq, ?_, ?_, ?_⟩
  · rw [hreq]
    intro hcon
    have hinj := Option.some.inj hcon
    have h2 := two_le_countRequestTokens_v3 q
    exact itoa_natCast_ne_zero_str (by omega) hinj
  · rw [hv3]
    unfold setEstimatedTokens
    simp only [sinkSet_headers]
    rw [hGetO_hSet_self]
    rfl
  · rw [hv3]
    unfold setEstimatedTokens
    simp only [sinkSet_bodyOut, markDecided_bodyOut]
    rw [ranRW_real_bodyOut]

/-- Witness for `c2_amended_cache_hit`: the spec's own scenario — cache hit,
`usage.prompt_tokens = 0`, `usage.completion_tokens = 25`.  The request
header carries the non-zero estimate; the response header carries `"25"`,
which is the upstream's number, zero-able in general (see
`c2_counterexample`); the body is forwarded unmodified. -/
theorem c2_amended_witness :
    hGetO (serveHTTP_v3 exDecReq exDecRespZeroPrompt defaultCfg exNextHit exRequest
        emptySink).headers (runes "X-Request-Token-Count")
      = some (itoa (countRequestTokens_v3 exEnvelope : Int))
    ∧ hGetO (serveHTTP_v3 exDecReq exDecRespZeroPrompt defaultCfg exNextHit exRequest
        emptySink).headers (runes "X-Request-Token-Count") ≠ some (runes "0")
    ∧ hGetO (serveHTTP_v3 exDecReq exDecRespZeroPrompt defaultCfg exNextHit exRequest
        emptySink).headers (runes "X-Response-Token-Count")
      = some (itoa exZeroPromptResp.usage.completionTokens)
    ∧ (serveHTTP_v3 exDecReq exDecRespZeroPrompt defaultCfg exNextHit exRequest
        emptySink).bodyOut
      = writesConcat (exNextHit { exRequest with body := some exReqBody })
    ∧ itoa exZeroPromptResp.usage.completionTokens = runes "25" :=
  ⟨(c2_amended_cache_hit exDecReq exDecRespZeroPrompt defaultCfg exNextHit exRequest
      exReqBody exEnvelope exZeroPromptResp (by decide) (by decide) rfl rfl (by decide)
      (by decide) rfl (by decide)).1,
   (c2_amended_cache_hit exDecReq exDecRespZeroPrompt defaultCfg exNextHit exRequest
      exReqBody exEnvelope exZeroPromptResp (by decide) (by decide) rfl rfl (by decide)
      (by decide) rfl (by decide)).2.1,
   (c2_amended_cache_hit exDecReq exDecRespZeroPrompt defaultCfg exNextHit exRequest
      exReqBody exEnvelope exZeroPromptResp (by decide) (by decide) rfl rfl (by decide)
      (by decide) rfl (by decide)).2.2.1,
   (c2_amended_cache_hit exDecReq exDecRespZeroPrompt defaultCfg exNextHit exRequest
      exReqBody exEnvelope exZeroPromptResp (by decide) (by decide) rfl rfl (by decide)
      (by decide) rfl (by decide)).2.2.2,
   by decide⟩

/-- C3: in-scope request, captured 200, body parses, cache signal other
than `Hit` (absent included), upstream not itself setting the token
headers: each token header is set to the upstream's usage count exactly
when that count is strictly positive (a zero or missing count leaves the
header unset), and the body is forwarded unmodified.  Stated for the
cache-aware variant 3 and for variant 2 (which reads no cache signal and
behaves this way on every parsed 200). -/
theorem c3_actual_tokens (decReq3 : GoStr → Option SimpleRequest)
    (decResp3 : GoStr → Option SimpleResponse)
    (decReq12 : GoStr → Option OpenAIRequest) (decResp12 : GoStr → OpenAIResponse × Bool)
    (tc : TokenCounterCfg) (next : HttpRequest → List UpAction) (req : HttpRequest)
    (bs : GoStr) (q3 : SimpleRequest) (q12 : OpenAIRequest)
    (r3 : SimpleResponse) (r12 : OpenAIResponse)
    (hm : req.method = runes "POST")
    (hp : hasSubstr req.path (runes "/chat/completions") = true)
    (hb : req.body = some bs)
    (hd3 : decReq3 bs = some q3) (hd12 : decReq12 bs = some q12)
    (hkeys : tc.requestTokenHeader ≠ tc.responseTokenHeader)
    (hstat : (ranRW next { req with body := some bs }).statusCode = 200)
    (hr3 : decResp3 (ranRW next { req with body := some bs }).body = some r3)
    (hr12 : decResp12 (ranRW next { req with body := some bs }).body = (r12, false))
    (hcache : ¬ hGetD (ranRW next { req with body := some bs }).real.headers
        (runes "X-Cache-Status") = runes "Hit")
    (hup1 : hGetO (ranRW next { req with body := some bs }).real.headers
        tc.requestTokenHeader = none)
    (hup2 : hGetO (ranRW next { req with body := some bs }).real.headers
        tc.responseTokenHeader = none) :
    ((0 : Int) < r3.usage.promptTokens →
      hGetO (serveHTTP_v3 decReq3 decResp3 tc next req emptySink).headers
          tc.requestTokenHeader = some (itoa r3.usage.promptTokens))
    ∧ (r3.usage.promptTokens ≤ 0 →
      hGetO (serveHTTP_v3 decReq3 decResp3 tc next req emptySink).headers
          tc.requestTokenHeader = none)
    ∧ ((0 : Int) < r3.usage.completionTokens →
      hGetO (serveHTTP_v3 decReq3 decResp3 tc next req emptySink).headers
          tc.responseTokenHeader = some (itoa r3.usage.completionTokens))
    ∧ (r3.usage.completionTokens ≤ 0 →
      hGetO (serveHTTP_v3 decReq3 decResp3 tc next req emptySink).headers
          tc.responseTokenHeader = none)
    ∧ (serveHTTP_v3 decReq3 decResp3 tc next req emptySink).bodyOut
      = writesConcat (next { req with body := some bs })
    ∧ ((0 : Int) < r12.usage.promptTokens →
      hGetO (serveHTTP_v2 decReq12 decResp12 tc next req emptySink).headers
          tc.requestTokenHeader = some (itoa r12.usage.promptTokens))
    ∧ (r12.usage.promptTokens ≤ 0 →
      hGetO (serveHTTP_v2 decReq12 decResp12 tc next req emptySink).headers
          tc.requestTokenHeader = none)
    ∧ ((0 : Int) < r12.usage.completionTokens →
      hGetO (serveHTTP_v2 decReq12 decResp12 tc next req emptySink).headers
          tc.responseTokenHeader = some (itoa r12.usage.completionTokens))
    ∧ (r12.usage.completionTokens ≤ 0 →
      hGetO (serveHTTP_v2 decReq12 decResp12 tc next req emptySink).headers
          tc.responseTokenHeader = none)
    ∧ (serveHTTP_v2 decReq12 decResp12 tc next req emptySink).bodyOut
      = writesConcat (next { req with body := some bs }) := by
  have hv3 : serveHTTP_v3 decReq3 decResp3 tc next req emptySink
      = setActualTokens tc
          (markDecided (ranRW next { req with body := some bs }).real) r3 := by
    rw [serveHTTP_v3_inscope decReq3 decResp3 tc next req bs q3 hm hp hb hd3]
    unfold engineTail_v3
    dsimp only
    rw [if_neg (by simp [hstat]), hr3]
    dsimp only
    rw [markDecided_headers, if_neg hcache]
  have hv2 : serveHTTP_v2 decReq12 decResp12 tc next req emptySink
      = setUsageTokens tc
          (markDecided (ranRW next { req with body := some bs }).real) r12.usage := by
    rw [serveHTTP_v2_inscope decReq12 decResp12 tc next req bs q12 hm hp hb hd12]
    unfold engineTail_v2
    dsimp only
    rw [if_pos hstat, hr12]
    rfl
  have h3 := setUsageTokens_hGet tc
    (markDecided (ranRW next { req with body := some bs }).real) r3.usage hkeys hup1 hup2
  have h2 := setUsageTokens_hGet tc
    (markDecided (ranRW next { req with body := some bs }).real) r12.usage hkeys hup1 hup2
  rw [hv3, hv2]
  refine ⟨h3.1, h3.2.1, h3.2.2.1, h3.2.2.2, ?_, h2.1, h2.2.1, h2.2.2.1, h2.2.2.2, ?_⟩
  · simp only [setActualTokens_bodyOut, markDecided_bodyOut]
    rw [ranRW_real_bodyOut]
  · simp only [setUsageTokens_bodyOut, markDecided_bodyOut]
    rw [ranRW_real_bodyOut]

/-- Witness for `c3_actual_tokens`: the spec's scenario — usage 15/25, no
cache signal — yields headers "15" and "25" and the unmodified body, in
both variants. -/
theorem c3_actual_tokens_witness :
    hGetO (serveHTTP_v3 exDecReq exDecResp defaultCfg exNextPlain exRequest
        emptySink).headers (runes "X-Request-Token-Count") = some (runes "15")
    ∧ hGetO (serveHTTP_v3 exDecReq exDecResp defaultCfg exNextPlain exRequest
        emptySink).headers (runes "X-Response-Token-Count") = some (runes "25")
    ∧ (serveHTTP_v3 exDecReq exDecResp defaultCfg exNextPlain exRequest emptySink).bodyOut
      = exRespBody
    ∧ hGetO (serveHTTP_v2 exDecReq12 exDecResp12 defaultCfg exNextPlain exRequest
        emptySink).headers (runes "X-Request-Token-Count") = some (runes "15")
    ∧ hGetO (serveHTTP_v2 exDecReq12 exDecResp12 defaultCfg exNextPlain exRequest
        emptySink).headers (runes "X-Response-Token-Count") = some (runes "25") := by
  have h := c3_actual_tokens exDecReq exDecResp exDecReq12 exDecResp12 defaultCfg
    exNextPlain exRequest exReqBody exEnvelope exEnvelope12 exUsageResp
    { usage := { promptTokens := 15, completionTokens := 25, totalTokens := 40 } }
    (by decide) (by decide) rfl rfl rfl (by decide) (by decide) rfl rfl (by decide)
    (by decide) (by decide)
  have e15 : itoa (15 : Int) = runes "15" := by decide
  have e25 : itoa (25 : Int) = runes "25" := by decide
  have ebody : writesConcat (exNextPlain { exRequest with body := some exReqBody })
      = exRespBody := by decide
  exact ⟨e15 ▸ h.1 (by decide), e25 ▸ h.2.2.1 (by decide), ebody ▸ h.2.2.2.2.1,
    e15 ▸ h.2.2.2.2.2.1 (by decide), e25 ▸ h.2.2.2.2.2.2.2.1 (by decide)⟩

/-- C4 counterexample: in-scope request, captured 200, body that fails to
decode: in the cache-aware variant neither token header is set (the claim
requires both headers to carry local estimates). -/
theorem c4_counterexample :
    hGetO (serveHTTP_v3 exDecReq exDecRespFail defaultCfg exNextPlain exRequest
        emptySink).headers (runes "X-Request-Token-Count") = none
    ∧ hGetO (serveHTTP_v3 exDecReq exDecRespFail defaultCfg exNextPlain exRequest
        emptySink).headers (runes "X-Response-Token-Count") = none := by decide

/-- C4 amended: on a captured 200 whose body fails to decode, the variants
diverge, and in neither is the failure surfaced to the client.  The
cache-aware variant 3 returns silently: the engine adds nothing — the final
sink is exactly the post-upstream sink, so both token headers stay unset
and the already-forwarded original body and status stand.  Variant 2 sets
both headers: the request header to the envelope estimate and the response
header to `countResponseTokens` applied to the response value `r12` as the
failed `Unmarshal` left it — the zero value (string "0") when decoding
fails outright, a partially populated value when `json.Unmarshal` filled
fields before a type-mismatch error — and forwards the original body. -/
theorem c4_amended_decode_failure (decReq3 : GoStr → Option SimpleRequest)
    (decResp3 : GoStr → Option SimpleResponse)
    (decReq12 : GoStr → Option OpenAIRequest) (decResp12 : GoStr → OpenAIResponse × Bool)
    (tc : TokenCounterCfg) (next : HttpRequest → List UpAction) (req : HttpRequest)
    (bs : GoStr) (q3 : SimpleRequest) (q12 : OpenAIRequest) (r12 : OpenAIResponse)
    (hm : req.method = runes "POST")
    (hp : hasSubstr req.path (runes "/chat/completions") = true)
    (hb : req.body = some bs)
    (hd3 : decReq3 bs = some q3) (hd12 : decReq12 bs = some q12)
    (hkeys : tc.requestTokenHeader ≠ tc.responseTokenHeader)
    (hstat : (ranRW next { req with body := some bs }).statusCode = 200)
    (hr3 : decResp3 (ranRW next { req with body := some bs }).body = none)
    (hr12 : decResp12 (ranRW next { req with body := some bs }).body = (r12, true)) :
    serveHTTP_v3 decReq3 decResp3 tc next req emptySink
      = markDecided (ranRW next { req with body := some bs }).real
    ∧ hGetO (serveHTTP_v2 decReq12 decResp12 tc next req emptySink).headers
        tc.requestTokenHeader = some (itoa (countRequestTokens_v12 q12 : Int))
    ∧ hGetO (serveHTTP_v2 decReq12 decResp12 tc next req emptySink).headers
        tc.responseTokenHeader = some (itoa (countResponseTokens_v12 r12))
    ∧ (serveHTTP_v2 decReq12 decResp12 tc next req emptySink).bodyOut
      = writesConcat (next { req with body := some bs })
    ∧ (serveHTTP_v3 decReq3 decResp3 tc next req emptySink).bodyOut
      = writesConcat (next { req with body := some bs }) := by
  have hv3 : serveHTTP_v3 decReq3 decResp3 tc next req emptySink
      = markDecided (ranRW next { req with body := some bs }).real := by
    rw [serveHTTP_v3_inscope decReq3 decResp3 tc next req bs q3 hm hp hb hd3]
    unfold engineTail_v3
    dsimp only
    rw [if_neg (by simp [hstat]), hr3]
  have hv2 : serveHTTP_v2 decReq12 decResp12 tc next req emptySink
      = sinkSet (sinkSet (markDecided (ranRW next { req with body := some bs }).real)
          tc.requestTokenHeader (itoa (countRequestTokens_v12 q12 : Int)))
          tc.responseTokenHeader (itoa (countResponseTokens_v12 r12)) := by
    rw [serveHTTP_v2_inscope decReq12 decResp12 tc next req bs q12 hm hp hb hd12]
    unfold engineTail_v2
    dsimp only
    rw [if_pos hstat, hr12]
    rfl
  refine ⟨hv3, ?_, ?_, ?_, ?_⟩
  · rw [hv2]
    simp only [sinkSet_headers]
    rw [hGetO_hSet_other _ _ _ _ hkeys, hGetO_hSet_self]
  · rw [hv2]
    simp only [sinkSet_headers]
    rw [hGetO_hSet_self]
  · rw [hv2]
    simp only [sinkSet_bodyOut, markDecided_bodyOut]
    rw [ranRW_real_bodyOut]
  · rw [hv3]
    simp only [markDecided_bodyOut]
    rw [ranRW_real_bodyOut]

/-- Witness for `c4_amended_decode_failure` at the concrete
unparseable-200 exchange, with the decode-failure response header value
spelled out as the string "0". -/
theorem c4_amended_witness :
    serveHTTP_v3 exDecReq exDecRespFail defaultCfg exNextPlain exRequest emptySink
      = markDecided (ranRW exNextPlain { exRequest with body := some exReqBody }).real
    ∧ hGetO (serveHTTP_v2 exDecReq12 exDecRespFail12 defaultCfg exNextPlain exRequest
        emptySink).headers (runes "X-Request-Token-Count")
      = some (itoa (countRequestTokens_v12 exEnvelope12 : Int))
    ∧ hGetO (serveHTTP_v2 exDecReq12 exDecRespFail12 defaultCfg exNextPlain exRequest
        emptySink).headers (runes "X-Response-Token-Count")
      = some (itoa (countResponseTokens_v12 {}))
    ∧ itoa (countResponseTokens_v12 ({} : OpenAIResponse)) = runes "0"
    ∧ hGetO (serveHTTP_v2 exDecReq12 exDecRespPartial12 defaultCfg exNextPlain exRequest
        emptySink).headers (runes "X-Response-Token-Count")
      = some (itoa (countResponseTokens_v12 exPartialResp12))
    ∧ itoa (countResponseTokens_v12 exPartialResp12) = runes "7" := by
  have h1 := c4_amended_decode_failure exDecReq exDecRespFail exDecReq12 exDecRespFail12
    defaultCfg exNextPlain exRequest exReqBody exEnvelope exEnvelope12 {}
    (by decide) (by decide) rfl rfl rfl (by decide) (by decide) rfl rfl
  have h2 := c4_amended_decode_failure exDecReq exDecRespFail exDecReq12 exDecRespPartial12
    defaultCfg exNextPlain exRequest exReqBody exEnvelope exEnvelope12 exPartialResp12
    (by decide) (by decide) rfl rfl rfl (by decide) (by decide) rfl rfl
  exact ⟨h1.1, h1.2.1, h1.2.2.1, by decide, h2.2.2.1, by decide⟩

/-- Witness for `c1_amended_tee_trace` at the concrete cache-hit exchange. -/
theorem c1_amended_witness :
    (serveHTTP_v3 exDecReq exDecRespZero defaultCfg exNextHit exRequest emptySink).events.take
        (tracePre exNextHit { exRequest with body := some exReqBody }).length
      = tracePre exNextHit { exRequest with body := some exReqBody }
    ∧ allSetHeaders
        ((serveHTTP_v3 exDecReq exDecRespZero defaultCfg exNextHit exRequest
          emptySink).events.drop
          (tracePre exNextHit { exRequest with body := some exReqBody }).length) = true
    ∧ (serveHTTP_v3 exDecReq exDecRespZero defaultCfg exNextHit exRequest emptySink).bodyOut
      = writesConcat (exNextHit { exRequest with body := some exReqBody }) :=
  c1_amended_tee_trace exDecReq exDecRespZero defaultCfg exNextHit exRequest exReqBody
    exEnvelope (by decide) (by decide) rfl rfl

end TC
